import Mathlib

/-!
Verification of AgentStack's packaging module (agentstack/packaging.py).

This file is a shallow embedding of the packaging module.  The central
function is `_wrap_command_with_callbacks`, a subprocess driver that launches
one external command, polls it, forwards output chunks to an `on_progress`
callback, accumulates all output, and reports the outcome through
`on_complete` / `on_error` callbacks plus a boolean return value.

The interaction with the operating system (process launch, each
`communicate(timeout=1.0)` read attempt in the polling loop, the final
`communicate()` drain, the exit code, and the behaviour of `terminate()` in
the `finally` block) is modelled by a `ProcScript`: an oracle describing what
each external call does in one run.  Callback invocations are recorded as a
trace of `CEvent`s.  The `on_progress` callback may itself raise:
`pfail k = some msg` means the k-th `on_progress` invocation raises an
exception with message `msg` (Python exceptions are modelled by their message
strings).  `on_complete` and `on_error` are modelled as pure observers.

The module-level path computation (`_get_executeable_paths`, the line-31
destructuring, `_setup_env`) and the callers `install_project` and
`create_venv` are embedded as well.
-/

set_option autoImplicit false

namespace AgentStack

/-- What one iteration of the read loop observes from
`process.communicate(timeout=1.0)`:
a `subprocess.TimeoutExpired`, a pair of stdout/stderr chunks, or some other
exception raised by the read. -/
inductive ReadEvent where
  | timeout
  | chunk (stdout stderr : String)
  | readExc (msg : String)
  deriving DecidableEq, Repr

/-- Oracle for one run of `_wrap_command_with_callbacks`: what the external
world does at each point the function interacts with it. -/
structure ProcScript where
  /-- holds `some msg` when `subprocess.Popen(...)` raises with message
  `msg`. -/
  launchError : Option String
  /-- behaviour of successive iterations of the `while process.poll() is None`
  loop; when the list is exhausted, `poll()` reports that the child exited. -/
  reads : List ReadEvent
  /-- behaviour of the final `process.communicate()` drain: remaining
  `(stdout, stderr)` output, or an exception. -/
  final : Except String (String × String)
  /-- exit code returned by `process.wait()`. -/
  exitCode : Int
  /-- holds `some msg` when `process.terminate()` in the `finally` block
  raises. -/
  terminateError : Option String
  deriving Repr

/-- One recorded callback invocation. -/
inductive CEvent where
  | progress (s : String)
  | complete (s : String)
  | error (s : String)
  deriving DecidableEq, Repr

/-- State threaded through the read loop: the `all_lines` accumulator, the
trace of callback invocations so far, and how many times `on_progress` has
been invoked (used to index into the `on_progress` failure oracle). -/
structure LoopState where
  allLines : String
  events : List CEvent
  pcount : Nat
  deriving DecidableEq, Repr

/-- Initial loop state: `all_lines` is empty, no callbacks invoked yet. -/
def initState : LoopState := ⟨"", [], 0⟩

/-- Embeds `if chunk: on_progress(chunk); all_lines += chunk` for one stream's
chunk.  An empty (falsy) chunk is skipped.  A non-empty chunk is passed to
`on_progress`; if that invocation raises (per `pfail`), the exception message
is returned and `all_lines` is not extended (the `+=` on the next line is not
reached). -/
def emitChunk (pfail : Nat → Option String) (st : LoopState) (s : String) :
    LoopState × Option String :=
  if s = "" then (st, none)
  else
    match pfail st.pcount with
    | some m =>
      (⟨st.allLines, st.events ++ [CEvent.progress s], st.pcount + 1⟩, some m)
    | none =>
      (⟨st.allLines ++ s, st.events ++ [CEvent.progress s], st.pcount + 1⟩, none)

/-- The `while process.poll() is None` read loop.  A `timeout` event hits the
`except subprocess.TimeoutExpired: continue` arm.  A `readExc` event, or an
exception raised by `on_progress` on either chunk, hits the
`except Exception: log; break` arm: the loop stops and the exception does not
propagate further. -/
def runLoop (pfail : Nat → Option String) :
    List ReadEvent → LoopState → LoopState
  | [], st => st
  | ev :: rest, st =>
    match ev with
    | ReadEvent.timeout => runLoop pfail rest st
    | ReadEvent.readExc _ => st
    | ReadEvent.chunk so se =>
      match emitChunk pfail st so with
      | (st1, some _) => st1
      | (st1, none) =>
        match emitChunk pfail st1 se with
        | (st2, some _) => st2
        | (st2, none) => runLoop pfail rest st2

/-- The final `stdout, stderr = process.communicate()` drain after the loop,
including the two chunk-forwarding blocks.  Returns the updated state and
`some msg` when the drain itself, or an `on_progress` call made during it,
raises: such an exception is caught by the
`except Exception: log; process.kill(); raise` handler around the whole
reading section. -/
def finalDrain (pfail : Nat → Option String)
    (final : Except String (String × String)) (st : LoopState) :
    LoopState × Option String :=
  match final with
  | Except.error msg => (st, some msg)
  | Except.ok (so, se) =>
    match emitChunk pfail st so with
    | (st1, some m) => (st1, some m)
    | (st1, none) =>
      match emitChunk pfail st1 se with
      | (st2, some m) => (st2, some m)
      | (st2, none) => (st2, none)

/-- Observable outcome of one call to `_wrap_command_with_callbacks`. -/
structure RunResult where
  /-- the boolean return value. -/
  ret : Bool
  /-- callback invocations, in order. -/
  events : List CEvent
  /-- whether `subprocess.Popen` returned a process handle. -/
  processCreated : Bool
  /-- whether the `finally` block attempted `process.terminate()`. -/
  terminateAttempted : Bool
  /-- whether `process.kill()` was executed (outer read-exception handler). -/
  killed : Bool
  /-- holds `some msg` when an exception escapes to the caller. -/
  escaped : Option String
  deriving DecidableEq, Repr

/-- The `finally` block: `if process: try: process.terminate() except: log`.
Returns the pair (terminate attempted, exception escaping from the block). -/
def runFinally (processCreated : Bool) (terminateError : Option String) :
    Bool × Option String :=
  if processCreated then
    match terminateError with
    | some _ => (true, none)
    | none => (true, none)
  else (false, none)

/-- Shallow embedding of `_wrap_command_with_callbacks` (packaging.py,
lines 187-263), with the external world given by `script` and the
`on_progress` failure oracle by `pfail`.  Follows the source's control flow:
launch, read loop, final drain, exit-code dispatch, the outermost
`except Exception` handler that invokes `on_error` with a textual description,
and the `finally` block that attempts termination. -/
def wrapCommandWithCallbacks (pfail : Nat → Option String)
    (script : ProcScript) : RunResult :=
  match script.launchError with
  | some msg =>
    let (ta, esc) := runFinally false script.terminateError
    { ret := false,
      events := [CEvent.error ("Exception running command: " ++ msg)],
      processCreated := false, terminateAttempted := ta,
      killed := false, escaped := esc }
  | none =>
    let stL := runLoop pfail script.reads initState
    match finalDrain pfail script.final stL with
    | (stF, some msg) =>
      let (ta, esc) := runFinally true script.terminateError
      { ret := false,
        events := stF.events ++ [CEvent.error ("Exception running command: " ++ msg)],
        processCreated := true, terminateAttempted := ta,
        killed := true, escaped := esc }
    | (stF, none) =>
      let (ta, esc) := runFinally true script.terminateError
      if script.exitCode = 0 then
        { ret := true,
          events := stF.events ++ [CEvent.complete stF.allLines],
          processCreated := true, terminateAttempted := ta,
          killed := false, escaped := esc }
      else
        { ret := false,
          events := stF.events ++ [CEvent.error stF.allLines],
          processCreated := true, terminateAttempted := ta,
          killed := false, escaped := esc }

/-! Observation helpers on scripts and traces. -/

/-- Concatenation of a list of strings, in order. -/
def strConcat : List String → String
  | [] => ""
  | s :: rest => s ++ strConcat rest

/-- The text a `ReadEvent` contributes to the command's output
(stdout before stderr, matching the forwarding order in the loop body). -/
def ReadEvent.chunkText : ReadEvent → String
  | ReadEvent.chunk so se => so ++ se
  | _ => ""

/-- Holds exactly when no read attempt in the list raises. -/
def noReadExc : List ReadEvent → Bool
  | [] => true
  | ReadEvent.readExc _ :: _ => false
  | _ :: rest => noReadExc rest

/-- Holds exactly when the final drain succeeds. -/
def finalOk : Except String (String × String) → Bool
  | Except.ok _ => true
  | Except.error _ => false

/-- The text the final drain contributes to the command's output. -/
def finalText : Except String (String × String) → String
  | Except.ok (so, se) => so ++ se
  | Except.error _ => ""

/-- Full concatenation of every chunk the command writes to either stream, in
emission order: the loop reads followed by the final drain. -/
def scriptOutput (script : ProcScript) : String :=
  strConcat (script.reads.map ReadEvent.chunkText) ++ finalText script.final

/-- Arguments of the `on_progress` invocations in a trace, in order. -/
def progressArgs : List CEvent → List String
  | [] => []
  | CEvent.progress s :: rest => s :: progressArgs rest
  | _ :: rest => progressArgs rest

/-- Arguments of the `on_complete` invocations in a trace, in order. -/
def completeArgs : List CEvent → List String
  | [] => []
  | CEvent.complete s :: rest => s :: completeArgs rest
  | _ :: rest => completeArgs rest

/-- Arguments of the `on_error` invocations in a trace, in order. -/
def errorArgs : List CEvent → List String
  | [] => []
  | CEvent.error s :: rest => s :: errorArgs rest
  | _ :: rest => errorArgs rest

/-- Number of `on_complete` invocations in a trace. -/
def countComplete (evs : List CEvent) : Nat := (completeArgs evs).length

/-- Number of `on_error` invocations in a trace. -/
def countError (evs : List CEvent) : Nat := (errorArgs evs).length

/-- The payload of the last event of a trace, when that event is the terminal
`on_complete` or `on_error` call. -/
def terminalPayload (evs : List CEvent) : Option String :=
  match evs.getLast? with
  | some (CEvent.complete s) => some s
  | some (CEvent.error s) => some s
  | _ => none

/-- The `on_progress` oracle that never raises: every invocation returns. -/
def pnone : Nat → Option String := fun _ => none

/-!
Callers of the process runner: `install_project` and `create_venv`.

These are modelled against an abstract `runner : List String → Bool` standing
for `_wrap_command_with_callbacks` applied to a command, so that the
caller-side control flow (the no-cache retry, the venv-exists early return)
is exactly the source's.
-/

/-- First command issued by `install_project`:
`[get_uv_bin(), 'pip', 'install', '--python', PYTHON_EXECUTABLE, '.']`. -/
def installProjectCmd1 (uvBin pythonExe : String) : List String :=
  [uvBin, "pip", "install", "--python", pythonExe, "."]

/-- Retry command issued by `install_project` when the first invocation
returns false, with the no-cache flag inserted. -/
def installProjectCmd2 (uvBin pythonExe : String) : List String :=
  [uvBin, "pip", "install", "--no-cache", "--python", pythonExe, "."]

/-- Shallow embedding of `install_project` (packaging.py, lines 54-97).
Returns the pair (whether an exception propagates to the caller, the runner
invocations made, in order).  The inner `raise Exception(...)` on double
failure is caught by the outer handler, logged and re-raised, so it still
propagates. -/
def install_project (uvBin pythonExe : String)
    (runner : List String → Bool) : Bool × List (List String) :=
  if runner (installProjectCmd1 uvBin pythonExe) then
    (false, [installProjectCmd1 uvBin pythonExe])
  else if runner (installProjectCmd2 uvBin pythonExe) then
    (false, [installProjectCmd1 uvBin pythonExe, installProjectCmd2 uvBin pythonExe])
  else
    (true, [installProjectCmd1 uvBin pythonExe, installProjectCmd2 uvBin pythonExe])

/-- Shallow embedding of `create_venv` (packaging.py, lines 146-164).
Here `venvExists` is the result of `os.path.exists(conf.PATH / VENV_DIR_NAME)`.
Returns the runner invocations made. -/
def create_venv (venvExists : Bool) (uvBin python_version : String) :
    List (List String) :=
  if venvExists then []
  else [[uvBin, "venv", "--python", python_version]]

/-!
Paths and the child environment.

A `pathlib.Path` is modelled as an absolute flag plus a list of segments.
The slash operator discards the left operand when the right operand is
absolute, and `Path.absolute()` prefixes the current working directory to a
relative path, both as in `pathlib`.  `os.environ` is an association list
looked up at the first matching key.
-/

/-- A `pathlib.Path`: absolute flag plus name segments. -/
structure PyPath where
  isAbs : Bool
  segs : List String
  deriving DecidableEq, Repr

/-- The `pathlib` slash operator: if the right operand is absolute it
replaces the left operand entirely. -/
def PyPath.join (a b : PyPath) : PyPath :=
  if b.isAbs then b else ⟨a.isAbs, a.segs ++ b.segs⟩

/-- Embeds `Path.absolute()`: anchor a relative path at the current working
directory; an absolute path is returned unchanged. -/
def PyPath.toAbsolute (cwd p : PyPath) : PyPath :=
  if p.isAbs then p else cwd.join p

/-- Rendering of a path as a string (posix rules). -/
def PyPath.str (p : PyPath) : String :=
  (if p.isAbs then ("/") else ( "")) ++ String.intercalate ("/") p.segs

/-- Ambient interpreter state read by the module: `sys.platform`,
`conf.PATH`, the working directory (used by `Path.absolute()`),
`sys.executable` and `os.environ`. -/
structure SysEnv where
  isWin32 : Bool
  confPath : PyPath
  cwd : PyPath
  sysExecutable : String
  environ : List (String × String)

/-- Embeds `VENV_DIR_NAME: Path = Path(".venv")`. -/
def VENV_DIR_NAME : PyPath := ⟨false, [".venv"]⟩

/-- Shallow embedding of `_get_executeable_paths` (packaging.py, lines
23-28): returns `venv_path, venv_bin_dir, python_path` in that order. -/
def _get_executeable_paths (s : SysEnv) : PyPath × PyPath × String :=
  let python_path : String :=
    if s.isWin32 then (".venv/Scripts/python.exe") else (".venv/bin/python")
  let venv_path : PyPath := s.confPath.join (PyPath.toAbsolute s.cwd VENV_DIR_NAME)
  let venv_bin_dir : PyPath :=
    venv_path.join ⟨false, [if s.isWin32 then ("Scripts") else ("bin")]⟩
  (venv_path, venv_bin_dir, python_path)

/-- Module-level destructuring at line 31:
`PYTHON_EXECUTABLE, VENV_PATH, VENV_BIN_DIR = _get_executeable_paths()`.
The components are taken in the order the tuple provides them, so
`PYTHON_EXECUTABLE` receives `venv_path`. -/
def PYTHON_EXECUTABLE (s : SysEnv) : PyPath := (_get_executeable_paths s).1

/-- Second component of the line-31 destructuring: `VENV_PATH` receives
`venv_bin_dir`. -/
def VENV_PATH (s : SysEnv) : PyPath := (_get_executeable_paths s).2.1

/-- Third component of the line-31 destructuring: `VENV_BIN_DIR` receives
`python_path`. -/
def VENV_BIN_DIR (s : SysEnv) : String := (_get_executeable_paths s).2.2

/-- Assignment on a dict modelled as an association list: replace the
binding when the key is present, append it otherwise. -/
def dictSet (env : List (String × String)) (k v : String) :
    List (String × String) :=
  if env.any (fun p => p.1 == k) then
    env.map (fun p => if p.1 == k then (k, v) else p)
  else env ++ [(k, v)]

/-- Lookup on a dict modelled as an association list. -/
def dictGet (env : List (String × String)) (k : String) : Option String :=
  (env.find? (fun p => p.1 == k)).map Prod.snd

/-- Shallow embedding of `_setup_env` (packaging.py, lines 177-184): copy
`os.environ`, set the key VIRTUAL_ENV to `str(VENV_PATH)` and the key
UV_INTERNAL__PARENT_INTERPRETER to `sys.executable`. -/
def _setup_env (s : SysEnv) : List (String × String) :=
  dictSet (dictSet (s.environ) ("VIRTUAL_ENV") ((VENV_PATH s).str))
    ("UV_INTERNAL__PARENT_INTERPRETER") (s.sysExecutable)

/-! Concrete runs used to instantiate the theorems below. -/

/-- A successful run: two output chunks, one timeout, a final-drain chunk,
exit code 0. -/
def w1script : ProcScript :=
  ⟨none, [ReadEvent.chunk ("a") ("b"), ReadEvent.timeout, ReadEvent.chunk ("") ("c")],
    Except.ok ("d", ""), 0, none⟩

/-- A failing run: two chunks, a final-drain chunk, exit code 1, and a
`terminate()` that raises in the `finally` block. -/
def w2script : ProcScript :=
  ⟨none, [ReadEvent.chunk ("x") (""), ReadEvent.chunk ("") ("y")],
    Except.ok ("z", ""), 1, some ("terminate failed")⟩

/-- A run whose `Popen` raises (unresolvable executable). -/
def w4script : ProcScript :=
  ⟨some ("No such file or directory"), [], Except.ok ("", ""), 0, none⟩

/-- A run where a mid-loop read attempt raises while the child later exits
with code 0: the loop aborts, the drain still runs, the call succeeds. -/
def c6cexScript : ProcScript :=
  ⟨none,
    [ReadEvent.chunk ("a") (""), ReadEvent.readExc ("io fail"),
      ReadEvent.chunk ("zz") ("")],
    Except.ok ("b", ""), 0, none⟩

/-- A run whose first read attempt raises. -/
def w6script : ProcScript :=
  ⟨none, [ReadEvent.readExc ("boom"), ReadEvent.timeout],
    Except.ok ("", ""), 0, none⟩

/-- A run whose final drain raises. -/
def w6drainScript : ProcScript :=
  ⟨none, [], Except.error ("drain blew up"), 0, none⟩

/-- A failing run with progress output on both streams, used for the
progress-concatenation property. -/
def w7script : ProcScript :=
  ⟨none, [ReadEvent.chunk ("he") ("llo"), ReadEvent.timeout],
    Except.ok ("", "!"), 1, none⟩

/-- An `on_progress` oracle whose first invocation raises. -/
def w9pfail : Nat → Option String :=
  fun n => if n = 0 then some ("callback exploded") else none

/-- A run paired with `w9pfail`: the first chunk's `on_progress` call raises,
the loop aborts, the final drain still delivers output, exit code 0. -/
def w9script : ProcScript :=
  ⟨none, [ReadEvent.chunk ("x") (""), ReadEvent.chunk ("y") ("")],
    Except.ok ("z", ""), 0, none⟩

/-- A runner for the `install_project` caller property: succeeds exactly when
the command carries the no-cache flag. -/
def w8runner : List String → Bool :=
  fun c => c.contains ("--no-cache")

/-- A concrete ambient state on a posix platform: the project directory is
distinct from the working directory, so the two path slips are visible. -/
def c5sys : SysEnv :=
  { isWin32 := false,
    confPath := ⟨true, ["home", "user", "project"]⟩,
    cwd := ⟨true, ["work"]⟩,
    sysExecutable := "/usr/bin/python3",
    environ := [("PATH", "/usr/bin"), ("HOME", "/home/user")] }

/-- A trace `b` extends `a` by `on_progress` invocations only. -/
def progressExtends (a b : List CEvent) : Prop :=
  ∃ l, b = a ++ l ∧ ∀ e ∈ l, ∃ s, e = CEvent.progress s

/-- All `on_progress` invocations recorded in a trace carry non-empty text. -/
def argsNonempty (evs : List CEvent) : Prop :=
  ∀ s ∈ progressArgs evs, s ≠ ""

/-- Invariant tying the recorded `on_progress` arguments to the `all_lines`
accumulator: their concatenation is exactly the accumulated text. -/
def concatInv (st : LoopState) : Prop :=
  strConcat (progressArgs st.events) = st.allLines

/-! Basic lemmas about traces. -/

theorem strConcat_append (a b : List String) :
    strConcat (a ++ b) = strConcat a ++ strConcat b := by
  induction a with
  | nil => simp [strConcat]
  | cons s rest ih => simp [strConcat, ih, String.append_assoc]

theorem progressArgs_append (a b : List CEvent) :
    progressArgs (a ++ b) = progressArgs a ++ progressArgs b := by
  induction a with
  | nil => simp [progressArgs]
  | cons e rest ih => cases e <;> simp [progressArgs, ih]

theorem completeArgs_append (a b : List CEvent) :
    completeArgs (a ++ b) = completeArgs a ++ completeArgs b := by
  induction a with
  | nil => simp [completeArgs]
  | cons e rest ih => cases e <;> simp [completeArgs, ih]

theorem errorArgs_append (a b : List CEvent) :
    errorArgs (a ++ b) = errorArgs a ++ errorArgs b := by
  induction a with
  | nil => simp [errorArgs]
  | cons e rest ih => cases e <;> simp [errorArgs, ih]

theorem progressOnly_completeArgs (l : List CEvent)
    (hp : ∀ e ∈ l, ∃ s, e = CEvent.progress s) : completeArgs l = [] := by
  induction l with
  | nil => rfl
  | cons e rest ih =>
    obtain ⟨s, rfl⟩ := hp e (by simp)
    simpa [completeArgs] using ih (fun e he => hp e (by simp [he]))

theorem progressOnly_errorArgs (l : List CEvent)
    (hp : ∀ e ∈ l, ∃ s, e = CEvent.progress s) : errorArgs l = [] := by
  induction l with
  | nil => rfl
  | cons e rest ih =>
    obtain ⟨s, rfl⟩ := hp e (by simp)
    simpa [errorArgs] using ih (fun e he => hp e (by simp [he]))

theorem progressExtends_refl (a : List CEvent) : progressExtends a a :=
  ⟨[], by simp, by simp⟩

theorem progressExtends_trans {a b c : List CEvent}
    (h1 : progressExtends a b) (h2 : progressExtends b c) :
    progressExtends a c := by
  obtain ⟨l1, rfl, hp1⟩ := h1
  obtain ⟨l2, rfl, hp2⟩ := h2
  refine ⟨l1 ++ l2, by simp, ?_⟩
  intro e he
  rcases List.mem_append.1 he with h | h
  exacts [hp1 e h, hp2 e h]

/-! Lemmas about `emitChunk`. -/

theorem emitChunk_events (pf : Nat → Option String) (st : LoopState) (s : String) :
    (emitChunk pf st s).1.events =
      st.events ++ (if s = "" then [] else [CEvent.progress s]) := by
  unfold emitChunk
  split
  · rename_i h; simp [h]
  · rename_i h; cases pf st.pcount <;> simp [h]

theorem emitChunk_pnone (st : LoopState) (s : String) :
    emitChunk pnone st s =
      (⟨st.allLines ++ s,
        st.events ++ (if s = "" then [] else [CEvent.progress s]),
        st.pcount + (if s = "" then 0 else 1)⟩, none) := by
  unfold emitChunk pnone
  split
  · rename_i h; subst h; simp
  · rename_i h; simp [h]

theorem emitChunk_progressExtends (pf : Nat → Option String) (st : LoopState)
    (s : String) : progressExtends st.events (emitChunk pf st s).1.events := by
  rw [progressExtends, emitChunk_events]
  exact ⟨_, rfl, by split <;> simp⟩

/-! Lemmas about the read loop. -/

theorem runLoop_progressExtends (pf : Nat → Option String) (evs : List ReadEvent) :
    ∀ st : LoopState, progressExtends st.events (runLoop pf evs st).events := by
  induction evs with
  | nil => intro st; simpa [runLoop] using progressExtends_refl st.events
  | cons ev rest ih =>
    intro st
    cases ev with
    | timeout => simpa [runLoop] using ih st
    | readExc m => simpa [runLoop] using progressExtends_refl st.events
    | chunk so se =>
      rcases h1 : emitChunk pf st so with ⟨st1, r1⟩
      have E1 : progressExtends st.events st1.events := by
        have := emitChunk_progressExtends pf st so
        rwa [h1] at this
      cases r1 with
      | some m => simpa [runLoop, h1] using E1
      | none =>
        rcases h2 : emitChunk pf st1 se with ⟨st2, r2⟩
        have E2 : progressExtends st1.events st2.events := by
          have := emitChunk_progressExtends pf st1 se
          rwa [h2] at this
        cases r2 with
        | some m => simpa [runLoop, h1, h2] using progressExtends_trans E1 E2
        | none =>
          have E3 := ih st2
          simpa [runLoop, h1, h2] using
            progressExtends_trans (progressExtends_trans E1 E2) E3

theorem runLoop_pnone_allLines (evs : List ReadEvent) (h : noReadExc evs = true) :
    ∀ st : LoopState, (runLoop pnone evs st).allLines =
      st.allLines ++ strConcat (evs.map ReadEvent.chunkText) := by
  induction evs with
  | nil => intro st; simp [runLoop, strConcat]
  | cons ev rest ih =>
    cases ev with
    | timeout =>
      intro st
      have h' : noReadExc rest = true := by simpa [noReadExc] using h
      simp [runLoop, ReadEvent.chunkText, strConcat, ih h' st]
    | readExc m => simp [noReadExc] at h
    | chunk so se =>
      intro st
      have h' : noReadExc rest = true := by simpa [noReadExc] using h
      simp [runLoop, emitChunk_pnone, ih h', ReadEvent.chunkText, strConcat,
        String.append_assoc]

/-! Lemmas about the final drain. -/

theorem finalDrain_error (pf : Nat → Option String) (msg : String)
    (st : LoopState) : finalDrain pf (Except.error msg) st = (st, some msg) := rfl

theorem finalDrain_progressExtends (pf : Nat → Option String)
    (fin : Except String (String × String)) (st : LoopState) :
    progressExtends st.events (finalDrain pf fin st).1.events := by
  cases fin with
  | error msg => simpa [finalDrain] using progressExtends_refl st.events
  | ok p =>
    rcases p with ⟨so, se⟩
    rcases h1 : emitChunk pf st so with ⟨st1, r1⟩
    have E1 : progressExtends st.events st1.events := by
      have := emitChunk_progressExtends pf st so
      rwa [h1] at this
    cases r1 with
    | some m => simpa [finalDrain, h1] using E1
    | none =>
      rcases h2 : emitChunk pf st1 se with ⟨st2, r2⟩
      have E2 : progressExtends st1.events st2.events := by
        have := emitChunk_progressExtends pf st1 se
        rwa [h2] at this
      cases r2 with
      | some m => simpa [finalDrain, h1, h2] using progressExtends_trans E1 E2
      | none => simpa [finalDrain, h1, h2] using progressExtends_trans E1 E2

theorem finalDrain_pnone_ok (so se : String) (st : LoopState) :
    finalDrain pnone (Except.ok (so, se)) st =
      (⟨st.allLines ++ (so ++ se),
        st.events ++ ((if so = "" then [] else [CEvent.progress so]) ++
          (if se = "" then [] else [CEvent.progress se])),
        st.pcount + ((if so = "" then 0 else 1) + (if se = "" then 0 else 1))⟩,
       none) := by
  simp [finalDrain, emitChunk_pnone, String.append_assoc, Nat.add_assoc]

/-! The clean run: `on_progress` never raises, no read attempt raises, the
final drain succeeds.  The loop then consumes every read event and the final
state's accumulator is the full script output. -/

theorem clean_run_state (script : ProcScript) (so se : String)
    (hR : noReadExc script.reads = true)
    (hF : script.final = Except.ok (so, se)) :
    (finalDrain pnone script.final (runLoop pnone script.reads initState)).2 =
      none ∧
    (finalDrain pnone script.final
        (runLoop pnone script.reads initState)).1.allLines =
      scriptOutput script ∧
    completeArgs (finalDrain pnone script.final
        (runLoop pnone script.reads initState)).1.events = [] ∧
    errorArgs (finalDrain pnone script.final
        (runLoop pnone script.reads initState)).1.events = [] := by
  obtain ⟨l, hl, hp⟩ := runLoop_progressExtends pnone script.reads initState
  have hA := runLoop_pnone_allLines script.reads hR initState
  rw [hF, finalDrain_pnone_ok]
  refine ⟨rfl, ?_, ?_, ?_⟩
  · rw [hA]
    simp [scriptOutput, finalText, hF, initState]
  · rw [hl]
    split <;> split <;>
      simp [initState, completeArgs_append, progressOnly_completeArgs l hp,
        completeArgs]
  · rw [hl]
    split <;> split <;>
      simp [initState, errorArgs_append, progressOnly_errorArgs l hp,
        errorArgs]

/-! Normal form of the wrapper. -/

theorem runFinally_eq (b : Bool) (te : Option String) :
    runFinally b te = (b, none) := by
  cases b <;> cases te <;> rfl

theorem wrap_eq (pf : Nat → Option String) (script : ProcScript) :
    wrapCommandWithCallbacks pf script =
      match script.launchError with
      | some msg =>
        ⟨false, [CEvent.error ("Exception running command: " ++ msg)],
          false, false, false, none⟩
      | none =>
        match finalDrain pf script.final (runLoop pf script.reads initState) with
        | (stF, some msg) =>
          ⟨false, stF.events ++ [CEvent.error ("Exception running command: " ++ msg)],
            true, true, true, none⟩
        | (stF, none) =>
          if script.exitCode = 0 then
            ⟨true, stF.events ++ [CEvent.complete stF.allLines],
              true, true, false, none⟩
          else
            ⟨false, stF.events ++ [CEvent.error stF.allLines],
              true, true, false, none⟩ := by
  unfold wrapCommandWithCallbacks
  cases script.launchError with
  | some msg => simp [runFinally_eq]
  | none =>
    rcases hF : finalDrain pf script.final (runLoop pf script.reads initState) with
      ⟨stF, r⟩
    cases r with
    | some msg => simp [runFinally_eq, hF]
    | none => simp [runFinally_eq, hF]

/-! Propagation of the two callback invariants through a run. -/

theorem argsNonempty_emitChunk (pf : Nat → Option String) (st : LoopState)
    (s : String) (h : argsNonempty st.events) :
    argsNonempty (emitChunk pf st s).1.events := by
  intro x hx
  rw [emitChunk_events, progressArgs_append] at hx
  rcases List.mem_append.1 hx with h' | h'
  · exact h x h'
  · revert h'
    split
    · simp [progressArgs]
    · rename_i hs
      simp only [progressArgs, List.mem_singleton]
      intro hxe
      subst hxe
      exact hs

theorem argsNonempty_runLoop (pf : Nat → Option String) (evs : List ReadEvent) :
    ∀ st : LoopState, argsNonempty st.events →
      argsNonempty (runLoop pf evs st).events := by
  induction evs with
  | nil => intro st h; simpa [runLoop] using h
  | cons ev rest ih =>
    intro st h
    cases ev with
    | timeout => simpa [runLoop] using ih st h
    | readExc m => simpa [runLoop] using h
    | chunk so se =>
      rcases h1 : emitChunk pf st so with ⟨st1, r1⟩
      have H1 : argsNonempty st1.events := by
        have := argsNonempty_emitChunk pf st so h
        rwa [h1] at this
      cases r1 with
      | some m => simpa [runLoop, h1] using H1
      | none =>
        rcases h2 : emitChunk pf st1 se with ⟨st2, r2⟩
        have H2 : argsNonempty st2.events := by
          have := argsNonempty_emitChunk pf st1 se H1
          rwa [h2] at this
        cases r2 with
        | some m => simpa [runLoop, h1, h2] using H2
        | none => simpa [runLoop, h1, h2] using ih st2 H2

theorem argsNonempty_finalDrain (pf : Nat → Option String)
    (fin : Except String (String × String)) (st : LoopState)
    (h : argsNonempty st.events) :
    argsNonempty (finalDrain pf fin st).1.events := by
  cases fin with
  | error msg => simpa [finalDrain] using h
  | ok p =>
    rcases p with ⟨so, se⟩
    rcases h1 : emitChunk pf st so with ⟨st1, r1⟩
    have H1 : argsNonempty st1.events := by
      have := argsNonempty_emitChunk pf st so h
      rwa [h1] at this
    cases r1 with
    | some m => simpa [finalDrain, h1] using H1
    | none =>
      rcases h2 : emitChunk pf st1 se with ⟨st2, r2⟩
      have H2 : argsNonempty st2.events := by
        have := argsNonempty_emitChunk pf st1 se H1
        rwa [h2] at this
      cases r2 with
      | some m => simpa [finalDrain, h1, h2] using H2
      | none => simpa [finalDrain, h1, h2] using H2

theorem concatInv_emitChunk_pnone (st : LoopState) (s : String)
    (h : concatInv st) : concatInv (emitChunk pnone st s).1 := by
  unfold concatInv at h ⊢
  rw [emitChunk_pnone]
  by_cases hs : s = ""
  · simp [hs, progressArgs_append, strConcat_append, h, progressArgs, strConcat]
  · simp [hs, progressArgs_append, strConcat_append, h, progressArgs, strConcat,
      String.append_assoc]

theorem concatInv_runLoop (evs : List ReadEvent) :
    ∀ st : LoopState, concatInv st → concatInv (runLoop pnone evs st) := by
  induction evs with
  | nil => intro st h; simpa [runLoop] using h
  | cons ev rest ih =>
    intro st h
    cases ev with
    | timeout => simpa [runLoop] using ih st h
    | readExc m => simpa [runLoop] using h
    | chunk so se =>
      have H1 := concatInv_emitChunk_pnone st so h
      have H2 := concatInv_emitChunk_pnone (emitChunk pnone st so).1 se H1
      simpa [runLoop, emitChunk_pnone] using
        ih _ (by simpa [emitChunk_pnone] using H2)

theorem concatInv_finalDrain_pnone (fin : Except String (String × String))
    (st : LoopState) (h : concatInv st) :
    concatInv (finalDrain pnone fin st).1 := by
  cases fin with
  | error msg => simpa [finalDrain] using h
  | ok p =>
    rcases p with ⟨so, se⟩
    have H1 := concatInv_emitChunk_pnone st so h
    have H2 := concatInv_emitChunk_pnone (emitChunk pnone st so).1 se H1
    simpa [finalDrain, emitChunk_pnone] using
      (by simpa [emitChunk_pnone] using H2 : concatInv _)

/-! Derived facts shared by several claim proofs. -/

theorem final_state_no_terminal_events (pf : Nat → Option String)
    (script : ProcScript) :
    completeArgs (finalDrain pf script.final
        (runLoop pf script.reads initState)).1.events = [] ∧
    errorArgs (finalDrain pf script.final
        (runLoop pf script.reads initState)).1.events = [] := by
  obtain ⟨l1, hl1, hp1⟩ := runLoop_progressExtends pf script.reads initState
  obtain ⟨l2, hl2, hp2⟩ :=
    finalDrain_progressExtends pf script.final (runLoop pf script.reads initState)
  rw [hl2, hl1]
  constructor
  · simp [initState, completeArgs_append, progressOnly_completeArgs l1 hp1,
      progressOnly_completeArgs l2 hp2, completeArgs]
  · simp [initState, errorArgs_append, progressOnly_errorArgs l1 hp1,
      progressOnly_errorArgs l2 hp2, errorArgs]

theorem countError_le_one (pf : Nat → Option String) (script : ProcScript) :
    countError (wrapCommandWithCallbacks pf script).events ≤ 1 := by
  have hT := final_state_no_terminal_events pf script
  rw [wrap_eq]
  cases hL : script.launchError with
  | some msg => simp [countError, errorArgs]
  | none =>
    rcases hFd : finalDrain pf script.final (runLoop pf script.reads initState)
      with ⟨stF, r⟩
    simp only [hFd] at hT
    cases r with
    | some msg =>
      simp [hFd, countError, errorArgs_append, hT.2, errorArgs]
    | none =>
      simp only [hFd]
      split <;> simp [countError, errorArgs_append, hT.2, errorArgs]

theorem wrap_argsNonempty (pf : Nat → Option String) (script : ProcScript) :
    argsNonempty (wrapCommandWithCallbacks pf script).events := by
  rw [wrap_eq]
  cases hL : script.launchError with
  | some msg => intro x hx; simp [progressArgs] at hx
  | none =>
    have h0 : argsNonempty initState.events := by
      intro x hx; simp [initState, progressArgs] at hx
    have h1 := argsNonempty_runLoop pf script.reads initState h0
    have h2 := argsNonempty_finalDrain pf script.final _ h1
    rcases hFd : finalDrain pf script.final (runLoop pf script.reads initState)
      with ⟨stF, r⟩
    simp only [hFd] at h2
    cases r with
    | some msg =>
      simp only [hFd]
      intro x hx
      rw [progressArgs_append] at hx
      rcases List.mem_append.1 hx with h | h
      · exact h2 x h
      · simp [progressArgs] at h
    | none =>
      simp only [hFd]
      split <;> intro x hx <;> rw [progressArgs_append] at hx <;>
        rcases List.mem_append.1 hx with h | h <;>
        first
          | exact h2 x h
          | simp [progressArgs] at h

theorem emitChunk_raise (pf : Nat → Option String) (st : LoopState)
    (s m : String) (hs : s ≠ "") (hp : pf st.pcount = some m) :
    emitChunk pf st s =
      (⟨st.allLines, st.events ++ [CEvent.progress s], st.pcount + 1⟩, some m) := by
  unfold emitChunk
  simp [hs, hp]

theorem runLoop_chunk_raise (pf : Nat → Option String) (st : LoopState)
    (so se : String) (rest : List ReadEvent) (hs : so ≠ "")
    (hp : (pf st.pcount).isSome = true) :
    runLoop pf (ReadEvent.chunk so se :: rest) st = (emitChunk pf st so).1 := by
  rcases hm : pf st.pcount with _ | m
  · rw [hm] at hp; simp at hp
  · rw [runLoop, emitChunk_raise pf st so m hs hm]

theorem runLoop_timeout_mid (pf : Nat → Option String) (l2 : List ReadEvent) :
    ∀ (l1 : List ReadEvent) (st : LoopState),
      runLoop pf (l1 ++ ReadEvent.timeout :: l2) st = runLoop pf (l1 ++ l2) st := by
  intro l1
  induction l1 with
  | nil => intro st; simp [runLoop]
  | cons ev rest ih =>
    intro st
    cases ev with
    | timeout => simp [runLoop, ih]
    | readExc m => simp [runLoop]
    | chunk so se =>
      rcases h1 : emitChunk pf st so with ⟨st1, r1⟩
      cases r1 with
      | some m => simp [runLoop, h1]
      | none =>
        rcases h2 : emitChunk pf st1 se with ⟨st2, r2⟩
        cases r2 with
        | some m => simp [runLoop, h1, h2]
        | none => simp [runLoop, h1, h2, ih]

theorem runLoop_readExc_head (pf : Nat → Option String) (msg : String)
    (rest : List ReadEvent) (st : LoopState) :
    runLoop pf (ReadEvent.readExc msg :: rest) st = st := by
  simp [runLoop]

theorem terminalPayload_append_complete (l : List CEvent) (x : String) :
    terminalPayload (l ++ [CEvent.complete x]) = some x := by
  simp [terminalPayload, List.getLast?_concat]

theorem terminalPayload_append_error (l : List CEvent) (x : String) :
    terminalPayload (l ++ [CEvent.error x]) = some x := by
  simp [terminalPayload, List.getLast?_concat]

theorem finalDrain_pnone_ok_snd (so se : String) (st : LoopState) :
    (finalDrain pnone (Except.ok (so, se)) st).2 = none := by
  rw [finalDrain_pnone_ok]

/-! Claims. -/

/-- C1: for every command whose child process exits with status 0 (launch and
reads succeeding, callbacks returning normally), `_wrap_command_with_callbacks`
returns true, invokes `on_complete` exactly once with the full concatenation of
every chunk the command wrote to stdout and stderr in emission order, and
never invokes `on_error`. -/
theorem exit_zero_invokes_complete_once (script : ProcScript) (so se : String)
    (hL : script.launchError = none) (hR : noReadExc script.reads = true)
    (hF : script.final = Except.ok (so, se)) (hE : script.exitCode = 0) :
    (wrapCommandWithCallbacks pnone script).ret = true ∧
    completeArgs (wrapCommandWithCallbacks pnone script).events =
      [scriptOutput script] ∧
    countError (wrapCommandWithCallbacks pnone script).events = 0 := by
  obtain ⟨h2, hAll, hC, hEr⟩ := clean_run_state script so se hR hF
  rw [wrap_eq]
  simp only [hL]
  rcases hFd : finalDrain pnone script.final (runLoop pnone script.reads initState)
    with ⟨stF, r⟩
  simp only [hFd] at h2 hAll hC hEr
  subst h2
  simp [hFd, hE, completeArgs_append, hC, hAll, countError, errorArgs_append,
    hEr, completeArgs, errorArgs]

/-- Witness for C1 at the concrete run `w1script`. -/
theorem exit_zero_invokes_complete_once_witness :
    (wrapCommandWithCallbacks pnone w1script).ret = true ∧
    completeArgs (wrapCommandWithCallbacks pnone w1script).events =
      [scriptOutput w1script] ∧
    countError (wrapCommandWithCallbacks pnone w1script).events = 0 :=
  exit_zero_invokes_complete_once w1script ("d") ("") rfl (by decide) rfl rfl

/-- C2: for every command whose child exits with a non-zero status (launch and
reads succeeding), the wrapper returns false, invokes `on_error` exactly once
with the full captured output, never invokes `on_complete`; and globally, in
no run do the exit-code-branch `on_error` call and the outer-handler
`on_error` call both occur (at most one `on_error` per invocation). -/
theorem exit_nonzero_invokes_error_once (script : ProcScript) (so se : String)
    (hL : script.launchError = none) (hR : noReadExc script.reads = true)
    (hF : script.final = Except.ok (so, se)) (hE : script.exitCode ≠ 0) :
    (wrapCommandWithCallbacks pnone script).ret = false ∧
    errorArgs (wrapCommandWithCallbacks pnone script).events =
      [scriptOutput script] ∧
    countComplete (wrapCommandWithCallbacks pnone script).events = 0 ∧
    ∀ (pf : Nat → Option String) (s : ProcScript),
      countError (wrapCommandWithCallbacks pf s).events ≤ 1 := by
  obtain ⟨h2, hAll, hC, hEr⟩ := clean_run_state script so se hR hF
  rw [wrap_eq]
  simp only [hL]
  rcases hFd : finalDrain pnone script.final (runLoop pnone script.reads initState)
    with ⟨stF, r⟩
  simp only [hFd] at h2 hAll hC hEr
  subst h2
  refine ⟨?_, ?_, ?_, fun pf s => countError_le_one pf s⟩ <;>
    simp [hFd, hE, errorArgs_append, hEr, hAll, countComplete,
      completeArgs_append, hC, completeArgs, errorArgs]

/-- Witness for C2 at the concrete run `w2script`. -/
theorem exit_nonzero_invokes_error_once_witness :
    (wrapCommandWithCallbacks pnone w2script).ret = false ∧
    errorArgs (wrapCommandWithCallbacks pnone w2script).events =
      [scriptOutput w2script] ∧
    countComplete (wrapCommandWithCallbacks pnone w2script).events = 0 ∧
    countError (wrapCommandWithCallbacks pnone w2script).events ≤ 1 :=
  have h := exit_nonzero_invokes_error_once w2script ("z") ("") rfl (by decide)
    rfl (by decide)
  ⟨h.1, h.2.1, h.2.2.1, h.2.2.2 pnone w2script⟩

/-- C3: no exception ever escapes to the caller; a process handle having been
created is exactly a successful launch; whenever a handle was created a
termination attempt is made before returning; and an exception raised by that
termination attempt changes nothing observable (the whole result is
independent of the `terminate()` behaviour). -/
theorem no_escape_and_guaranteed_termination
    (pf : Nat → Option String) (script : ProcScript) (e : Option String) :
    (wrapCommandWithCallbacks pf script).escaped = none ∧
    ((wrapCommandWithCallbacks pf script).processCreated = true ↔
      script.launchError = none) ∧
    (wrapCommandWithCallbacks pf script).terminateAttempted =
      (wrapCommandWithCallbacks pf script).processCreated ∧
    wrapCommandWithCallbacks pf { script with terminateError := e } =
      wrapCommandWithCallbacks pf script := by
  rw [wrap_eq pf script, wrap_eq pf { script with terminateError := e }]
  cases hL : script.launchError with
  | some msg => simp [hL]
  | none =>
    rcases hFd : finalDrain pf script.final (runLoop pf script.reads initState)
      with ⟨stF, r⟩
    cases r with
    | some msg => simp [hL, hFd]
    | none =>
      simp only [hL, hFd]
      split_ifs <;> simp

/-- C4: when process construction raises (executable unresolvable), the
wrapper returns false, the only callback invocation is a single `on_error`
carrying a textual description of the exception (not captured output), no
exception escapes, and no process handle exists. -/
theorem launch_failure_reports_description (pf : Nat → Option String)
    (script : ProcScript) (msg : String) (h : script.launchError = some msg) :
    (wrapCommandWithCallbacks pf script).ret = false ∧
    (wrapCommandWithCallbacks pf script).events =
      [CEvent.error ("Exception running command: " ++ msg)] ∧
    (wrapCommandWithCallbacks pf script).escaped = none ∧
    (wrapCommandWithCallbacks pf script).processCreated = false := by
  simp [wrap_eq, h]

/-- Witness for C4 at the concrete run `w4script`. -/
theorem launch_failure_reports_description_witness :
    (wrapCommandWithCallbacks pnone w4script).ret = false ∧
    (wrapCommandWithCallbacks pnone w4script).events =
      [CEvent.error ("Exception running command: " ++ "No such file or directory")] ∧
    (wrapCommandWithCallbacks pnone w4script).escaped = none ∧
    (wrapCommandWithCallbacks pnone w4script).processCreated = false :=
  launch_failure_reports_description pnone w4script ("No such file or directory") rfl

/-- C5 (evaluation of the slip): at the ambient state `c5sys`, `_setup_env`
sets the key VIRTUAL_ENV to the rendering of the venv bin directory — the
line-31 tuple unpacking binds `VENV_PATH` to `venv_bin_dir` — which differs
from the virtual-environment directory path (`venv_path`, the first component
returned by `_get_executeable_paths`).  The interpreter key and the remaining
entries are as specified. -/
theorem setup_env_virtual_env_is_bin_dir :
    dictGet (_setup_env c5sys) ("VIRTUAL_ENV") = some ("/work/.venv/bin") ∧
    ((_get_executeable_paths c5sys).1).str = "/work/.venv" ∧
    ("/work/.venv/bin" : String) ≠ "/work/.venv" ∧
    dictGet (_setup_env c5sys) ("UV_INTERNAL__PARENT_INTERPRETER") =
      some ("/usr/bin/python3") ∧
    dictGet (_setup_env c5sys) ("PATH") = some ("/usr/bin") ∧
    dictGet (_setup_env c5sys) ("HOME") = some ("/home/user") := by
  refine ⟨rfl, rfl, ?_, rfl, rfl, rfl⟩
  decide

/-- C6 counterexample: in the run `c6cexScript` a read attempt inside the
polling loop raises while the child exits with code 0.  Contrary to the
claim, the child is not killed, `on_error` is never invoked, and the call
returns true (the exception is swallowed by the inner handler, which only
breaks out of the loop). -/
theorem read_error_in_loop_not_fatal :
    (wrapCommandWithCallbacks pnone c6cexScript).ret = true ∧
    (wrapCommandWithCallbacks pnone c6cexScript).killed = false ∧
    countError (wrapCommandWithCallbacks pnone c6cexScript).events = 0 := by
  decide

/-- C6 (amended): a per-read timeout is not an error — removing it from the
read sequence changes nothing and `on_error` is not invoked for it; an
exception during a read attempt inside the loop aborts the loop early and the
call proceeds exactly as if polling had ended (no kill, no re-raise); the
child is killed if and only if the launch succeeded and the final-drain phase
raised, in which case the outer handler performs the single `on_error` call
for that path and the wrapper returns false. -/
theorem read_loop_error_policy :
    (∀ (pf : Nat → Option String) (script : ProcScript)
        (l1 l2 : List ReadEvent),
        script.reads = l1 ++ ReadEvent.timeout :: l2 →
        wrapCommandWithCallbacks pf script =
          wrapCommandWithCallbacks pf { script with reads := l1 ++ l2 }) ∧
    (∀ (pf : Nat → Option String) (script : ProcScript) (msg : String)
        (rest : List ReadEvent),
        script.reads = ReadEvent.readExc msg :: rest →
        wrapCommandWithCallbacks pf script =
          wrapCommandWithCallbacks pf { script with reads := [] }) ∧
    (∀ (pf : Nat → Option String) (script : ProcScript) (msg : String),
        script.launchError = none → script.final = Except.error msg →
        (wrapCommandWithCallbacks pf script).killed = true ∧
        (wrapCommandWithCallbacks pf script).ret = false ∧
        errorArgs (wrapCommandWithCallbacks pf script).events =
          [("Exception running command: ") ++ msg]) ∧
    (∀ (pf : Nat → Option String) (script : ProcScript),
        (wrapCommandWithCallbacks pf script).killed = true ↔
          (script.launchError = none ∧
            (finalDrain pf script.final
                (runLoop pf script.reads initState)).2 ≠ none)) := by
  refine ⟨?_, ?_, ?_, ?_⟩
  · intro pf script l1 l2 hr
    rw [wrap_eq pf script,
      wrap_eq pf { script with reads := l1 ++ l2 }]
    cases hL : script.launchError with
    | some msg => simp [hL]
    | none => simp [hL, hr, runLoop_timeout_mid]
  · intro pf script msg rest hr
    rw [wrap_eq pf script, wrap_eq pf { script with reads := [] }]
    cases hL : script.launchError with
    | some m => simp [hL]
    | none => simp [hL, hr, runLoop_readExc_head, runLoop]
  · intro pf script msg hL hF
    have hT := (final_state_no_terminal_events pf script).2
    rw [hF] at hT
    simp only [finalDrain_error] at hT
    rw [wrap_eq]
    simp [hL, hF, finalDrain_error, errorArgs_append, hT, errorArgs]
  · intro pf script
    rw [wrap_eq]
    cases hL : script.launchError with
    | some msg => simp [hL]
    | none =>
      rcases hFd : finalDrain pf script.final (runLoop pf script.reads initState)
        with ⟨stF, r⟩
      simp only [hFd]
      cases r with
      | some msg => simp
      | none =>
        split_ifs <;> simp

/-- Witness for the amended C6: the timeout-removal, loop-abort and
drain-failure conjuncts at concrete runs. -/
theorem read_loop_error_policy_witness :
    (wrapCommandWithCallbacks pnone w1script =
      wrapCommandWithCallbacks pnone
        { w1script with
            reads := [ReadEvent.chunk ("a") ("b")] ++ [ReadEvent.chunk ("") ("c")] }) ∧
    (wrapCommandWithCallbacks pnone w6script =
      wrapCommandWithCallbacks pnone { w6script with reads := [] }) ∧
    (wrapCommandWithCallbacks pnone w6drainScript).killed = true ∧
    (wrapCommandWithCallbacks pnone w6drainScript).ret = false ∧
    errorArgs (wrapCommandWithCallbacks pnone w6drainScript).events =
      [("Exception running command: ") ++ ("drain blew up")] ∧
    ((wrapCommandWithCallbacks pnone w6script).killed = true ↔
      (w6script.launchError = none ∧
        (finalDrain pnone w6script.final
            (runLoop pnone w6script.reads initState)).2 ≠ none)) :=
  have h := read_loop_error_policy
  have h3 := h.2.2.1 pnone w6drainScript ("drain blew up") rfl rfl
  ⟨h.1 pnone w1script [ReadEvent.chunk ("a") ("b")] [ReadEvent.chunk ("") ("c")] rfl,
   h.2.1 pnone w6script ("boom") [ReadEvent.timeout] rfl,
   h3.1, h3.2.1, h3.2.2,
   h.2.2.2 pnone w6script⟩

/-- C7: `on_progress` is never invoked with an empty string (in any run at
all), and in every run that completes command execution (launch succeeds, the
final drain succeeds, callbacks return normally) the concatenation of all
`on_progress` arguments, in order, equals the final accumulated text passed
to `on_complete` (on exit 0) or to `on_error` (on non-zero exit). -/
theorem progress_chunks_concat_to_payload (script : ProcScript) (so se : String)
    (hL : script.launchError = none) (hF : script.final = Except.ok (so, se)) :
    (∀ (pf : Nat → Option String) (s : ProcScript) (x : String),
        x ∈ progressArgs (wrapCommandWithCallbacks pf s).events → x ≠ "") ∧
    terminalPayload (wrapCommandWithCallbacks pnone script).events =
      some (strConcat
        (progressArgs (wrapCommandWithCallbacks pnone script).events)) := by
  refine ⟨fun pf s x hx => wrap_argsNonempty pf s x hx, ?_⟩
  have hInv0 : concatInv initState := rfl
  have hInv1 := concatInv_runLoop script.reads initState hInv0
  have hInv2 := concatInv_finalDrain_pnone script.final _ hInv1
  rw [wrap_eq]
  simp only [hL]
  rcases hFd : finalDrain pnone script.final (runLoop pnone script.reads initState)
    with ⟨stF, r⟩
  simp only [hFd] at hInv2
  have h2 : r = none := by
    have hs := finalDrain_pnone_ok_snd so se (runLoop pnone script.reads initState)
    rw [hF] at hFd
    rw [hFd] at hs
    simpa using hs
  subst h2
  have hInvF : strConcat (progressArgs stF.events) = stF.allLines := hInv2
  simp only [hFd]
  split_ifs with hE
  · rw [terminalPayload_append_complete]
    have hp : progressArgs (stF.events ++ [CEvent.complete stF.allLines]) =
        progressArgs stF.events := by
      simp [progressArgs_append, progressArgs]
    rw [hp, hInvF]
  · rw [terminalPayload_append_error]
    have hp : progressArgs (stF.events ++ [CEvent.error stF.allLines]) =
        progressArgs stF.events := by
      simp [progressArgs_append, progressArgs]
    rw [hp, hInvF]

/-- Witness for C7 at the concrete failing run `w7script`. -/
theorem progress_chunks_concat_to_payload_witness :
    (("he" : String) ≠ "") ∧
    terminalPayload (wrapCommandWithCallbacks pnone w7script).events =
      some (strConcat
        (progressArgs (wrapCommandWithCallbacks pnone w7script).events)) :=
  have h := progress_chunks_concat_to_payload w7script ("") ("!") rfl rfl
  ⟨h.1 pnone w7script ("he") (by decide), h.2⟩

/-- C8: the no-cache fallback lives in the caller: when the first runner
invocation of `install_project` returns false, the runner is invoked exactly
one more time with an argument sequence containing the no-cache flag, and an
exception propagates exactly when that second invocation also returns false;
the wrapper itself creates at most one process handle per call (exactly when
the single launch does not raise) and never retries. -/
theorem no_cache_retry_by_caller (uvBin py : String)
    (runner : List String → Bool)
    (h : runner (installProjectCmd1 uvBin py) = false) :
    (install_project uvBin py runner).2 =
      [installProjectCmd1 uvBin py, installProjectCmd2 uvBin py] ∧
    ("--no-cache" ∈ installProjectCmd2 uvBin py) ∧
    ((install_project uvBin py runner).1 = true ↔
      runner (installProjectCmd2 uvBin py) = false) ∧
    (∀ (pf : Nat → Option String) (s : ProcScript),
        (wrapCommandWithCallbacks pf s).processCreated = s.launchError.isNone) := by
  refine ⟨?_, ?_, ?_, ?_⟩
  · unfold install_project
    rw [h]
    cases hr : runner (installProjectCmd2 uvBin py) <;> simp [hr]
  · simp [installProjectCmd2]
  · unfold install_project
    rw [h]
    cases hr : runner (installProjectCmd2 uvBin py) <;> simp [hr]
  · intro pf s
    rw [wrap_eq]
    cases hL : s.launchError with
    | some m => simp [hL]
    | none =>
      rcases hFd : finalDrain pf s.final (runLoop pf s.reads initState)
        with ⟨stF, r⟩
      simp only [hFd]
      cases r with
      | some m => simp
      | none => split_ifs <;> simp

/-- Witness for C8 with a runner that fails without the no-cache flag and
succeeds with it. -/
theorem no_cache_retry_by_caller_witness :
    (install_project ("uv") ("py") w8runner).2 =
      [installProjectCmd1 ("uv") ("py"), installProjectCmd2 ("uv") ("py")] ∧
    ("--no-cache" ∈ installProjectCmd2 ("uv") ("py")) ∧
    ((install_project ("uv") ("py") w8runner).1 = true ↔
      w8runner (installProjectCmd2 ("uv") ("py")) = false) ∧
    (wrapCommandWithCallbacks pnone w4script).processCreated =
      w4script.launchError.isNone :=
  have h := no_cache_retry_by_caller ("uv") ("py") w8runner (by decide)
  ⟨h.1, h.2.1, h.2.2.1, h.2.2.2 pnone w4script⟩

/-- C9: an exception raised by `on_progress` during an iteration of the
polling loop is caught inside the loop and does not propagate: the loop stops
at that read, the remaining output is still drained, the exit code is still
evaluated (exit 0 still yields true with `on_complete` receiving the
accumulated text), the child is not killed and `on_error` is not invoked on
account of that exception. -/
theorem progress_callback_exception_contained
    (pf : Nat → Option String) (script : ProcScript)
    (hL : script.launchError = none)
    (hfin : (finalDrain pf script.final
        (runLoop pf script.reads initState)).2 = none) :
    (∀ (st : LoopState) (so se : String) (rest : List ReadEvent),
        so ≠ "" → (pf st.pcount).isSome = true →
        runLoop pf (ReadEvent.chunk so se :: rest) st = (emitChunk pf st so).1) ∧
    (wrapCommandWithCallbacks pf script).escaped = none ∧
    (wrapCommandWithCallbacks pf script).killed = false ∧
    (script.exitCode = 0 →
      (wrapCommandWithCallbacks pf script).ret = true ∧
      countError (wrapCommandWithCallbacks pf script).events = 0 ∧
      completeArgs (wrapCommandWithCallbacks pf script).events =
        [(finalDrain pf script.final
            (runLoop pf script.reads initState)).1.allLines]) := by
  have hT := final_state_no_terminal_events pf script
  rw [wrap_eq]
  simp only [hL]
  rcases hFd : finalDrain pf script.final (runLoop pf script.reads initState)
    with ⟨stF, r⟩
  simp only [hFd] at hT hfin
  subst hfin
  simp only [hFd]
  refine ⟨fun st so se rest hs hp => runLoop_chunk_raise pf st so se rest hs hp,
    ?_, ?_, ?_⟩
  · split_ifs <;> rfl
  · split_ifs <;> rfl
  · intro hE
    simp [hE, completeArgs_append, hT.1, countError, errorArgs_append, hT.2,
      completeArgs, errorArgs]

/-- Witness for C9: with `w9pfail`, the first chunk's `on_progress` call
raises; the loop aborts, the drain still delivers output, the call succeeds. -/
theorem progress_callback_exception_contained_witness :
    runLoop w9pfail
        (ReadEvent.chunk ("x") ("") :: [ReadEvent.chunk ("y") ("")]) initState =
      (emitChunk w9pfail initState ("x")).1 ∧
    (wrapCommandWithCallbacks w9pfail w9script).escaped = none ∧
    (wrapCommandWithCallbacks w9pfail w9script).killed = false ∧
    ((wrapCommandWithCallbacks w9pfail w9script).ret = true ∧
      countError (wrapCommandWithCallbacks w9pfail w9script).events = 0 ∧
      completeArgs (wrapCommandWithCallbacks w9pfail w9script).events =
        [(finalDrain w9pfail w9script.final
            (runLoop w9pfail w9script.reads initState)).1.allLines]) :=
  have h := progress_callback_exception_contained w9pfail w9script rfl (by decide)
  ⟨h.1 initState ("x") ("") [ReadEvent.chunk ("y") ("")] (by decide) (by decide),
   h.2.1, h.2.2.1, h.2.2.2 rfl⟩

/-- C10: when the virtual-environment directory already exists, `create_venv`
returns immediately without invoking the process runner or spawning any
external command. -/
theorem create_venv_skips_when_exists (uvBin v : String) :
    create_venv true uvBin v = [] := rfl

end AgentStack
